import Mathlib

/-!
# Verification of the realm-based sharing operations of the dexie-cloud todo sample

Shallow embedding of `src/samples/dexie-cloud-todo-app/src/db/TodoList.ts`.

The database state is modelled as four tables (lists of records), mirroring
`db.todoLists`, `db.todoItems`, `db.realms` and `db.members`, plus the ambient
session value `db.cloud.currentUserId`.  The record-store primitives
(`put`, `update`, `where(...).modify(...)`, `where(...).delete()`, `delete`,
`add`, `count`) are modelled from the spec's §6 external-interface contract,
since the Dexie library itself is outside `src/`.  The five entity methods
(`makeSharable`, `makePrivate`, `shareWith`, `unshareWith`, `delete`) are
translated directly from the TypeScript source.
-/

namespace DexieTodo

/-- A record of the `todoLists` table / an in-memory `TodoList` entity
(`id`, `realmId`, `owner`, `title` — the persisted properties of the class). -/
structure TodoListRec where
  id : String
  realmId : String
  owner : String
  title : String
deriving DecidableEq, Repr

/-- A record of the `todoItems` table.  Only the fields the sample's methods
touch are modelled (`realmId`, `todoListId`), plus an `id` key and a `done`
payload field standing for the rest of the record. -/
structure TodoItemRec where
  id : String
  realmId : String
  todoListId : String
  done : Bool
deriving DecidableEq, Repr

/-- A record of the `realms` table (`realmId`, `name`). -/
structure RealmRec where
  realmId : String
  name : String
deriving DecidableEq, Repr

/-- The permissions object of a membership record:
`{ add: [...], update: { table: [fields...] } }`. -/
structure Permissions where
  add : List String
  update : List (String × List String)
deriving DecidableEq, Repr

/-- A record of the `members` table. -/
structure MemberRec where
  realmId : String
  name : String
  email : String
  invite : Bool
  permissions : Permissions
deriving DecidableEq, Repr

/-- The store state: the four tables plus the ambient `db.cloud.currentUserId`
(the caller's personal realm id; constant during the operations). -/
structure DBState where
  todoLists : List TodoListRec
  todoItems : List TodoItemRec
  realms : List RealmRec
  members : List MemberRec
  currentUserId : String
deriving DecidableEq, Repr

/-- Modelled from the spec (§4.1, §3): `getTiedRealmId` from `dexie-cloud-addon`
(not under `src/`) — a pure, deterministic, injective mapping from a list id to
its tied realm id, computable identically on every replica. -/
def getTiedRealmId (id : String) : String :=
  "rlm~" ++ id

/-- `isSharable()`: `this.realmId === getTiedRealmId(this.id)`. -/
def isSharable (self : TodoListRec) : Bool :=
  self.realmId = getTiedRealmId self.id

/-! ## Record-store primitives (modelled from the spec, §6) -/

/-- Modelled from the spec: `realms.put(r)` — upsert by the primary key
`realmId`: any existing record at the key is replaced, otherwise the record is
inserted (insert-or-replace, not insert-or-fail). -/
def realmsPut (s : DBState) (r : RealmRec) : DBState :=
  { s with realms := s.realms.filter (fun q => ¬ q.realmId = r.realmId) ++ [r] }

/-- Modelled from the spec: `realms.delete(key)` — delete by key, a no-op when
no record exists at the key. -/
def realmsDelete (s : DBState) (rid : String) : DBState :=
  { s with realms := s.realms.filter (fun q => ¬ q.realmId = rid) }

/-- Modelled from the spec: `todoLists.update(id, { realmId })` — update the
record at primary key `id`, setting its `realmId`; a no-op when absent. -/
def listsUpdate (s : DBState) (id rid : String) : DBState :=
  { s with todoLists :=
      s.todoLists.map (fun l => if l.id = id then { l with realmId := rid } else l) }

/-- Modelled from the spec: `todoLists.delete(id)` — delete by key. -/
def listsDelete (s : DBState) (id : String) : DBState :=
  { s with todoLists := s.todoLists.filter (fun l => ¬ l.id = id) }

/-- Modelled from the spec: the Consistent Mutation Operator (§4.5) applied as
`todoItems.where({ realmId, todoListId }).modify({ realmId: newRid })` — set
the `realmId` of every item matching the predicate. -/
def itemsModifyRealm (s : DBState) (rid listId newRid : String) : DBState :=
  { s with todoItems :=
      s.todoItems.map (fun i =>
        if i.realmId = rid ∧ i.todoListId = listId then { i with realmId := newRid } else i) }

/-- Modelled from the spec: `todoItems.where({ todoListId }).delete()`. -/
def itemsDeleteByList (s : DBState) (listId : String) : DBState :=
  { s with todoItems := s.todoItems.filter (fun i => ¬ i.todoListId = listId) }

/-- Modelled from the spec: `members.add(m)` — insert a new membership record
(the table key is auto-generated, so `add` always appends). -/
def membersAdd (s : DBState) (m : MemberRec) : DBState :=
  { s with members := s.members ++ [m] }

/-- Modelled from the spec: `members.where('realmId').equals(rid).delete()`. -/
def membersDeleteByRealm (s : DBState) (rid : String) : DBState :=
  { s with members := s.members.filter (fun m => ¬ m.realmId = rid) }

/-- Modelled from the spec: `members.where({ realmId, email }).delete()`. -/
def membersDeleteByRealmEmail (s : DBState) (rid email : String) : DBState :=
  { s with members := s.members.filter (fun m => ¬ (m.realmId = rid ∧ m.email = email)) }

/-- Modelled from the spec: `members.where({ realmId }).count()`. -/
def membersCountByRealm (s : DBState) (rid : String) : Nat :=
  s.members.countP (fun m => m.realmId = rid)

/-- Number of realm records stored at a given realm id. -/
def realmCount (s : DBState) (rid : String) : Nat :=
  s.realms.countP (fun r => r.realmId = rid)

/-- Look up the stored list record with a given id (`todoLists.get(id)`);
used to model re-fetching the entity between successive method calls. -/
def findList (s : DBState) (id : String) : Option TodoListRec :=
  s.todoLists.find? (fun l => l.id = id)

/-! ## The entity methods, translated from `TodoList.ts` -/

/-- `makeSharable()`: inside one transaction, upsert the tied realm with the
list's title as name, update the list's `realmId` to the tied id, and move all
items from `(currentRealmId, this.id)` into the tied realm.  Returns the new
realm id together with the resulting state. -/
def makeSharable (self : TodoListRec) (s : DBState) : String × DBState :=
  let currentRealmId := self.realmId
  let newRealmId := getTiedRealmId self.id
  let s1 := realmsPut s { realmId := newRealmId, name := self.title }
  let s2 := listsUpdate s1 self.id newRealmId
  let s3 := itemsModifyRealm s2 currentRealmId self.id newRealmId
  (newRealmId, s3)

/-- `makePrivate()`: inside one transaction, move the items of
`(oldRealmId, this.id)` to `db.cloud.currentUserId`, update the list's
`realmId` to `currentUserId`, delete all memberships of `oldRealmId`, and
delete the realm record at `this.realmId`. -/
def makePrivate (self : TodoListRec) (s : DBState) : DBState :=
  let oldRealmId := self.realmId
  let s1 := itemsModifyRealm s oldRealmId self.id s.currentUserId
  let s2 := listsUpdate s1 self.id s1.currentUserId
  let s3 := membersDeleteByRealm s2 oldRealmId
  realmsDelete s3 self.realmId

/-- The fixed default permission set granted by `shareWith`:
`{ add: ['todoItems'], update: { todoItems: ['done'] } }`. -/
def defaultSharePermissions : Permissions :=
  { add := ["todoItems"], update := [("todoItems", ["done"])] }

/-- `shareWith(name, email, sendEmail)`: inside one transaction, promote the
list via `makeSharable()` when it is not already sharable, then add one
membership on the (possibly newly computed) realm id with the default
permission set and `invite := sendEmail`. -/
def shareWith (self : TodoListRec) (name email : String) (sendEmail : Bool)
    (s : DBState) : DBState :=
  let rs := if isSharable self then (self.realmId, s) else makeSharable self s
  membersAdd rs.2
    { realmId := rs.1, name := name, email := email, invite := sendEmail,
      permissions := defaultSharePermissions }

/-- `unshareWith(email)`: inside one transaction, delete the membership(s)
matching `(this.realmId, email)`; if at most one membership on `this.realmId`
remains, invoke `makePrivate()`. -/
def unshareWith (self : TodoListRec) (email : String) (s : DBState) : DBState :=
  let s1 := membersDeleteByRealmEmail s self.realmId email
  let numMembers := membersCountByRealm s1 self.realmId
  if numMembers ≤ 1 then makePrivate self s1 else s1

/-- `delete()`: inside one transaction, delete the items with
`todoListId == this.id`, delete the list record, delete all memberships of the
tied realm, and delete the tied realm record. -/
def deleteList (self : TodoListRec) (s : DBState) : DBState :=
  let s1 := itemsDeleteByList s self.id
  let s2 := listsDelete s1 self.id
  let tiedRealmId := getTiedRealmId self.id
  let s3 := membersDeleteByRealm s2 tiedRealmId
  realmsDelete s3 tiedRealmId

/-- `unshareWith` invoked on the current stored state of the list: the entity
is re-fetched from the store (as the sample's UI does between user actions)
before the method runs; a no-op when the list does not exist. -/
def unshareWithStored (listId email : String) (s : DBState) : DBState :=
  match findList s listId with
  | some l => unshareWith l email s
  | none => s

/-! ## Component lemmas: each operation's effect on each table, by unfolding -/

theorem makeSharable_fst (self : TodoListRec) (s : DBState) :
    (makeSharable self s).1 = getTiedRealmId self.id := rfl

theorem makeSharable_todoLists (self : TodoListRec) (s : DBState) :
    (makeSharable self s).2.todoLists =
      s.todoLists.map (fun l => if l.id = self.id then
        { l with realmId := getTiedRealmId self.id } else l) := rfl

theorem makeSharable_todoItems (self : TodoListRec) (s : DBState) :
    (makeSharable self s).2.todoItems =
      s.todoItems.map (fun i =>
        if i.realmId = self.realmId ∧ i.todoListId = self.id then
          { i with realmId := getTiedRealmId self.id } else i) := rfl

theorem makeSharable_realms (self : TodoListRec) (s : DBState) :
    (makeSharable self s).2.realms =
      s.realms.filter (fun q => ¬ q.realmId = getTiedRealmId self.id) ++
        [⟨getTiedRealmId self.id, self.title⟩] := rfl

theorem makeSharable_members (self : TodoListRec) (s : DBState) :
    (makeSharable self s).2.members = s.members := rfl

theorem makeSharable_currentUserId (self : TodoListRec) (s : DBState) :
    (makeSharable self s).2.currentUserId = s.currentUserId := rfl

theorem membersAdd_members (s : DBState) (m : MemberRec) :
    (membersAdd s m).members = s.members ++ [m] := rfl

theorem membersDeleteByRealmEmail_members (s : DBState) (rid email : String) :
    (membersDeleteByRealmEmail s rid email).members =
      s.members.filter (fun m => ¬ (m.realmId = rid ∧ m.email = email)) := rfl

theorem makePrivate_todoLists (self : TodoListRec) (s : DBState) :
    (makePrivate self s).todoLists =
      s.todoLists.map (fun l => if l.id = self.id then
        { l with realmId := s.currentUserId } else l) := rfl

theorem makePrivate_todoItems (self : TodoListRec) (s : DBState) :
    (makePrivate self s).todoItems =
      s.todoItems.map (fun i =>
        if i.realmId = self.realmId ∧ i.todoListId = self.id then
          { i with realmId := s.currentUserId } else i) := rfl

theorem makePrivate_members (self : TodoListRec) (s : DBState) :
    (makePrivate self s).members =
      s.members.filter (fun m => ¬ m.realmId = self.realmId) := rfl

theorem makePrivate_realms (self : TodoListRec) (s : DBState) :
    (makePrivate self s).realms =
      s.realms.filter (fun r => ¬ r.realmId = self.realmId) := rfl

theorem makePrivate_currentUserId (self : TodoListRec) (s : DBState) :
    (makePrivate self s).currentUserId = s.currentUserId := rfl

theorem deleteList_todoLists (self : TodoListRec) (s : DBState) :
    (deleteList self s).todoLists =
      s.todoLists.filter (fun l => ¬ l.id = self.id) := rfl

theorem deleteList_todoItems (self : TodoListRec) (s : DBState) :
    (deleteList self s).todoItems =
      s.todoItems.filter (fun i => ¬ i.todoListId = self.id) := rfl

theorem deleteList_members (self : TodoListRec) (s : DBState) :
    (deleteList self s).members =
      s.members.filter (fun m => ¬ m.realmId = getTiedRealmId self.id) := rfl

theorem deleteList_realms (self : TodoListRec) (s : DBState) :
    (deleteList self s).realms =
      s.realms.filter (fun r => ¬ r.realmId = getTiedRealmId self.id) := rfl

/-- `findList` after `makeSharable`: the looked-up record, when present, now
carries the tied realm id. -/
theorem findList_makeSharable (L : TodoListRec) (s : DBState) :
    findList (makeSharable L s).2 L.id =
      (findList s L.id).map (fun l => { l with realmId := getTiedRealmId L.id }) := by
  rw [findList, makeSharable_todoLists, List.find?_map]
  have hcomp : (fun l : TodoListRec => decide (l.id = L.id)) ∘
      (fun l => if l.id = L.id then { l with realmId := getTiedRealmId L.id } else l) =
      fun l : TodoListRec => decide (l.id = L.id) := by
    funext a
    by_cases h : a.id = L.id <;> simp [h]
  rw [hcomp, findList]
  cases hf : List.find? (fun l : TodoListRec => decide (l.id = L.id)) s.todoLists with
  | none => rfl
  | some a =>
    have ha : a.id = L.id := by simpa using List.find?_some hf
    simp [ha]

/-! ## Sanity checks on concrete inputs -/

example :
    (makeSharable ⟨"l1", "alice", "alice", "Groceries"⟩
      ⟨[⟨"l1", "alice", "alice", "Groceries"⟩], [⟨"i1", "alice", "l1", false⟩], [], [], "alice"⟩).2
    = ⟨[⟨"l1", "rlm~l1", "alice", "Groceries"⟩], [⟨"i1", "rlm~l1", "l1", false⟩],
       [⟨"rlm~l1", "Groceries"⟩], [], "alice"⟩ := by decide

/-! ## C1: makeSharable on a private list -/

/-- C1: for every private list `L` (`L.realmId ≠ getTiedRealmId L.id`) stored in
the state, `makeSharable` returns `getTiedRealmId L.id`; afterwards the stored
record of `L` has `realmId = getTiedRealmId L.id`; every item that was in
`(oldRealmId, L.id)` is now in `(getTiedRealmId L.id, L.id)`; and exactly one
realm record exists at `getTiedRealmId L.id`, with name `L.title`. -/
theorem makeSharable_correct (L : TodoListRec) (s : DBState)
    (hmem : L ∈ s.todoLists)
    (hpriv : L.realmId ≠ getTiedRealmId L.id) :
    (makeSharable L s).1 = getTiedRealmId L.id ∧
    (∃ l ∈ (makeSharable L s).2.todoLists, l.id = L.id) ∧
    (∀ l ∈ (makeSharable L s).2.todoLists, l.id = L.id →
      l.realmId = getTiedRealmId L.id) ∧
    (∀ i ∈ s.todoItems, i.realmId = L.realmId → i.todoListId = L.id →
      { i with realmId := getTiedRealmId L.id } ∈ (makeSharable L s).2.todoItems) ∧
    realmCount (makeSharable L s).2 (getTiedRealmId L.id) = 1 ∧
    (∀ r ∈ (makeSharable L s).2.realms, r.realmId = getTiedRealmId L.id →
      r.name = L.title) := by
  refine ⟨rfl, ?_, ?_, ?_, ?_, ?_⟩
  · refine ⟨{ L with realmId := getTiedRealmId L.id }, ?_, rfl⟩
    simp only [makeSharable, itemsModifyRealm, listsUpdate, realmsPut, List.mem_map]
    exact ⟨L, hmem, by simp⟩
  · intro l hl hid
    simp only [makeSharable, itemsModifyRealm, listsUpdate, realmsPut, List.mem_map] at hl
    obtain ⟨a, _, ha⟩ := hl
    by_cases h : a.id = L.id
    · simp [h] at ha; subst ha; rfl
    · simp [h] at ha; subst ha; exact absurd hid h
  · intro i hi hir hil
    simp only [makeSharable, itemsModifyRealm, listsUpdate, realmsPut, List.mem_map]
    exact ⟨i, hi, by simp [hir, hil]⟩
  · simp only [makeSharable, itemsModifyRealm, listsUpdate, realmsPut, realmCount,
      List.countP_append, List.countP_cons, List.countP_nil]
    have h0 : (s.realms.filter
        (fun q => ¬ q.realmId = getTiedRealmId L.id)).countP
        (fun r => r.realmId = getTiedRealmId L.id) = 0 := by
      rw [List.countP_eq_zero]
      intro a ha
      simp only [List.mem_filter, decide_eq_true_eq] at ha
      simp [ha.2]
    simp [h0]
  · intro r hr hrid
    simp only [makeSharable, itemsModifyRealm, listsUpdate, realmsPut,
      List.mem_append, List.mem_filter, decide_eq_true_eq] at hr
    rcases hr with ⟨_, hne⟩ | hr
    · exact absurd hrid hne
    · simp only [List.mem_singleton] at hr; subst hr; rfl

/-- Witness for C1 at a concrete private list and store. -/
theorem makeSharable_correct_witness :
    (⟨"l1", "alice", "alice", "Groceries"⟩ : TodoListRec) ∈
      (⟨[⟨"l1", "alice", "alice", "Groceries"⟩], [⟨"i1", "alice", "l1", false⟩],
        [], [], "alice"⟩ : DBState).todoLists ∧
    ("alice" : String) ≠ getTiedRealmId "l1" ∧
    (makeSharable ⟨"l1", "alice", "alice", "Groceries"⟩
      ⟨[⟨"l1", "alice", "alice", "Groceries"⟩], [⟨"i1", "alice", "l1", false⟩],
        [], [], "alice"⟩).1 = getTiedRealmId "l1" :=
  ⟨by decide, by decide,
    (makeSharable_correct ⟨"l1", "alice", "alice", "Groceries"⟩
      ⟨[⟨"l1", "alice", "alice", "Groceries"⟩], [⟨"i1", "alice", "l1", false⟩],
        [], [], "alice"⟩ (by decide) (by decide)).1⟩

/-! ## C2: makePrivate on a shared list

The code moves the list into `db.cloud.currentUserId` — the *caller's*
personal realm — whereas the claim (following §8 of the spec) demands the
*owner's* personal id for any caller.  When a non-owner member privatizes the
list, the two differ. -/

/-- A shared list owned by `bob`, while the ambient caller is `alice`. -/
def exListShared : TodoListRec :=
  ⟨"l1", getTiedRealmId "l1", "bob", "T"⟩

/-- Store state holding `exListShared`, one item, its tied realm and one
membership, with `currentUserId = "alice"` (a caller distinct from the owner). -/
def exStateShared : DBState :=
  ⟨[exListShared], [⟨"i1", getTiedRealmId "l1", "l1", false⟩],
   [⟨getTiedRealmId "l1", "T"⟩],
   [⟨getTiedRealmId "l1", "Bob", "bob.b", false, defaultSharePermissions⟩],
   "alice"⟩

/-- C2 counterexample: on `exStateShared` (caller `alice`, owner `bob`),
after `makePrivate` the stored record of the list has `realmId = "alice"`,
not the owner's personal id `"bob"` — refuting the claim as stated. -/
theorem makePrivate_owner_counterexample :
    ¬ (∀ l ∈ (makePrivate exListShared exStateShared).todoLists,
        l.id = exListShared.id → l.realmId = exListShared.owner) := by
  decide

/-- C2 (amended): after `makePrivate` on stored list `L` (whose items all lie
in `L`'s realm), the stored record of `L` has `realmId` equal to the *caller's*
personal id (`currentUserId`); zero membership records remain whose `realmId`
equals the old realm id; no realm record exists at the old realm id; and every
item of `L` is in `(currentUserId, L.id)`. -/
theorem makePrivate_correct (L : TodoListRec) (s : DBState)
    (hmem : L ∈ s.todoLists)
    (hitems : ∀ i ∈ s.todoItems, i.todoListId = L.id → i.realmId = L.realmId) :
    (∃ l ∈ (makePrivate L s).todoLists, l.id = L.id) ∧
    (∀ l ∈ (makePrivate L s).todoLists, l.id = L.id →
      l.realmId = s.currentUserId) ∧
    (∀ m ∈ (makePrivate L s).members, m.realmId ≠ L.realmId) ∧
    (∀ r ∈ (makePrivate L s).realms, r.realmId ≠ L.realmId) ∧
    (∀ i ∈ (makePrivate L s).todoItems, i.todoListId = L.id →
      i.realmId = s.currentUserId) := by
  refine ⟨?_, ?_, ?_, ?_, ?_⟩
  · refine ⟨{ L with realmId := s.currentUserId }, ?_, rfl⟩
    simp only [makePrivate, realmsDelete, membersDeleteByRealm, listsUpdate,
      itemsModifyRealm, List.mem_map]
    exact ⟨L, hmem, by simp⟩
  · intro l hl hid
    simp only [makePrivate, realmsDelete, membersDeleteByRealm, listsUpdate,
      itemsModifyRealm, List.mem_map] at hl
    obtain ⟨a, _, ha⟩ := hl
    by_cases h : a.id = L.id
    · simp [h] at ha; subst ha; rfl
    · simp [h] at ha; subst ha; exact absurd hid h
  · intro m hm
    simp only [makePrivate, realmsDelete, membersDeleteByRealm, listsUpdate,
      itemsModifyRealm, List.mem_filter, decide_eq_true_eq] at hm
    exact hm.2
  · intro r hr
    simp only [makePrivate, realmsDelete, membersDeleteByRealm, listsUpdate,
      itemsModifyRealm, List.mem_filter, decide_eq_true_eq] at hr
    exact hr.2
  · intro i hi hil
    simp only [makePrivate, realmsDelete, membersDeleteByRealm, listsUpdate,
      itemsModifyRealm, List.mem_map] at hi
    obtain ⟨a, hamem, ha⟩ := hi
    by_cases h : a.realmId = L.realmId ∧ a.todoListId = L.id
    · simp [h] at ha; subst ha; rfl
    · simp [h] at ha
      subst ha
      exact absurd ⟨hitems a hamem hil, hil⟩ h

/-- Witness for the amended C2 at a concrete shared list and store. -/
theorem makePrivate_correct_witness :
    exListShared ∈ exStateShared.todoLists ∧
    (∀ l ∈ (makePrivate exListShared exStateShared).todoLists,
      l.id = exListShared.id → l.realmId = exStateShared.currentUserId) :=
  ⟨by decide,
    (makePrivate_correct exListShared exStateShared (by decide) (by decide)).2.1⟩

/-! ## C3: shareWith then unshareWith reverts the list to private -/

/-- A private list owned by `alice`, who is also the ambient caller below. -/
def exListPrivate : TodoListRec :=
  ⟨"l1", "alice", "alice", "Groceries"⟩

/-- Store state holding `exListPrivate` and one of its items, with no realms
and no memberships, `currentUserId = "alice"`. -/
def exStatePrivate : DBState :=
  ⟨[exListPrivate], [⟨"i1", "alice", "l1", false⟩], [], [], "alice"⟩

/-- `shareWith` followed by `unshareWith`, the second call running on the
re-fetched stored record of the list (as the sample's UI does between user
actions, each acting on the current query result). -/
def shareThenUnshare (L : TodoListRec) (name email : String) (sendEmail : Bool)
    (s : DBState) : DBState :=
  unshareWithStored L.id email (shareWith L name email sendEmail s)

/-- C3: for a private list `L` whose owner is the caller, with no pre-existing
memberships on its tied realm, `shareWith name email sendEmail` followed by
`unshareWith email` reverts `L` to private: the stored record of `L` ends with
`realmId` equal to the owner's personal id, and no realm record and no
membership records for `getTiedRealmId L.id` remain (the membership count
dropping to `≤ 1` triggers the automatic `makePrivate` inside `unshareWith`).
-/
theorem shareThenUnshare_reverts (L : TodoListRec) (s : DBState)
    (name email : String) (sendEmail : Bool)
    (hfind : findList s L.id = some L)
    (hpriv : L.realmId ≠ getTiedRealmId L.id)
    (hnomem : ∀ m ∈ s.members, m.realmId ≠ getTiedRealmId L.id)
    (howner : s.currentUserId = L.owner) :
    (∃ l ∈ (shareThenUnshare L name email sendEmail s).todoLists, l.id = L.id) ∧
    (∀ l ∈ (shareThenUnshare L name email sendEmail s).todoLists, l.id = L.id →
      l.realmId = L.owner) ∧
    (∀ r ∈ (shareThenUnshare L name email sendEmail s).realms,
      r.realmId ≠ getTiedRealmId L.id) ∧
    (∀ m ∈ (shareThenUnshare L name email sendEmail s).members,
      m.realmId ≠ getTiedRealmId L.id) := by
  have hL : L ∈ s.todoLists := List.mem_of_find?_eq_some hfind
  have hshar : isSharable L = false := by simpa [isSharable] using hpriv
  have hs1 : shareWith L name email sendEmail s =
      membersAdd (makeSharable L s).2
        ⟨getTiedRealmId L.id, name, email, sendEmail, defaultSharePermissions⟩ := by
    unfold shareWith
    rw [hshar]
    rfl
  have hfind1 : findList (shareWith L name email sendEmail s) L.id =
      some { L with realmId := getTiedRealmId L.id } := by
    rw [hs1]
    show findList (makeSharable L s).2 L.id = _
    rw [findList_makeSharable, hfind]
    rfl
  have hcount : membersCountByRealm
      (membersDeleteByRealmEmail (membersAdd (makeSharable L s).2
          ⟨getTiedRealmId L.id, name, email, sendEmail, defaultSharePermissions⟩)
        (getTiedRealmId L.id) email) (getTiedRealmId L.id) = 0 := by
    rw [membersCountByRealm, List.countP_eq_zero]
    intro a ha
    simp only [decide_eq_true_eq]
    rw [membersDeleteByRealmEmail_members, membersAdd_members,
      makeSharable_members] at ha
    simp only [List.mem_filter, List.mem_append, List.mem_singleton,
      decide_eq_true_eq] at ha
    obtain ⟨hmem, hpred⟩ := ha
    rcases hmem with h | h
    · exact hnomem a h
    · subst h
      simp at hpred
  have ht : shareThenUnshare L name email sendEmail s =
      makePrivate { L with realmId := getTiedRealmId L.id }
        (membersDeleteByRealmEmail (membersAdd (makeSharable L s).2
            ⟨getTiedRealmId L.id, name, email, sendEmail, defaultSharePermissions⟩)
          (getTiedRealmId L.id) email) := by
    unfold shareThenUnshare unshareWithStored
    rw [hfind1]
    show unshareWith { L with realmId := getTiedRealmId L.id } email _ = _
    rw [hs1]
    unfold unshareWith
    simp only [hcount]
    simp
  refine ⟨?_, ?_, ?_, ?_⟩
  · rw [ht, makePrivate_todoLists]
    refine ⟨_, List.mem_map_of_mem _ (?_ :
      ({ L with realmId := getTiedRealmId L.id } : TodoListRec) ∈
        (membersDeleteByRealmEmail (membersAdd (makeSharable L s).2
            ⟨getTiedRealmId L.id, name, email, sendEmail, defaultSharePermissions⟩)
          (getTiedRealmId L.id) email).todoLists), by simp⟩
    show _ ∈ (makeSharable L s).2.todoLists
    rw [makeSharable_todoLists]
    have := List.mem_map_of_mem
      (fun l : TodoListRec => if l.id = L.id then
        { l with realmId := getTiedRealmId L.id } else l) hL
    simpa using this
  · intro l hl hid
    rw [ht, makePrivate_todoLists] at hl
    have hl' : l ∈ (s.todoLists.map (fun l : TodoListRec => if l.id = L.id then
        { l with realmId := getTiedRealmId L.id } else l)).map
        (fun l : TodoListRec => if l.id = L.id then
          { l with realmId := s.currentUserId } else l) := hl
    simp only [List.mem_map] at hl'
    obtain ⟨a, ⟨b, hb, hba⟩, hal⟩ := hl'
    by_cases h : b.id = L.id
    · simp only [h, if_pos] at hba
      subst hba
      simp only [if_pos] at hal
      subst hal
      exact howner.symm ▸ rfl
    · simp only [h, if_neg, if_false] at hba
      subst hba
      simp only [h, if_neg, if_false] at hal
      subst hal
      exact absurd hid h
  · intro r hr
    rw [ht, makePrivate_realms] at hr
    rw [List.mem_filter] at hr
    simpa using hr.2
  · intro m hm
    rw [ht, makePrivate_members] at hm
    rw [List.mem_filter] at hm
    simpa using hm.2

/-- Witness for C3 at a concrete private list, owner-caller and empty
membership table. -/
theorem shareThenUnshare_reverts_witness :
    (findList exStatePrivate exListPrivate.id = some exListPrivate ∧
     exListPrivate.realmId ≠ getTiedRealmId exListPrivate.id ∧
     exStatePrivate.currentUserId = exListPrivate.owner) ∧
    (∀ r ∈ (shareThenUnshare exListPrivate "Carol" "carol.c" true
        exStatePrivate).realms, r.realmId ≠ getTiedRealmId exListPrivate.id) :=
  ⟨⟨by decide, by decide, by decide⟩,
   (shareThenUnshare_reverts exListPrivate exStatePrivate "Carol" "carol.c" true
     (by decide) (by decide) (by decide) (by decide)).2.2.1⟩

/-! ## C4: makeSharable is idempotent -/

/-- C4: invoking `makeSharable` twice in sequence with no intervening
`makePrivate` — the second call on any entity carrying the same list id,
re-fetched or stale — leaves exactly one realm record at
`getTiedRealmId L.id` (the second upsert replaces rather than fails or
duplicates), and the stored `todoLists` table (hence the list's stored
`realmId`) is unchanged by the second call. -/
theorem makeSharable_idempotent (L Lsnd : TodoListRec) (s : DBState)
    (hid : Lsnd.id = L.id) :
    realmCount (makeSharable Lsnd (makeSharable L s).2).2 (getTiedRealmId L.id) = 1 ∧
    (makeSharable Lsnd (makeSharable L s).2).2.todoLists =
      (makeSharable L s).2.todoLists := by
  constructor
  · rw [realmCount, makeSharable_realms, hid, List.countP_append]
    have h0 : ((makeSharable L s).2.realms.filter
        (fun q => ¬ q.realmId = getTiedRealmId L.id)).countP
        (fun r => r.realmId = getTiedRealmId L.id) = 0 := by
      rw [List.countP_eq_zero]
      intro a ha
      simp only [List.mem_filter, decide_eq_true_eq] at ha
      simp [ha.2]
    simp [h0]
  · rw [makeSharable_todoLists, hid, makeSharable_todoLists, List.map_map]
    have hff : (fun l : TodoListRec => if l.id = L.id then
          { l with realmId := getTiedRealmId L.id } else l) ∘
        (fun l : TodoListRec => if l.id = L.id then
          { l with realmId := getTiedRealmId L.id } else l) =
        (fun l : TodoListRec => if l.id = L.id then
          { l with realmId := getTiedRealmId L.id } else l) := by
      funext a
      by_cases h : a.id = L.id <;> simp [h]
    rw [hff]

/-- Witness for C4: the same private list shared twice on a concrete store. -/
theorem makeSharable_idempotent_witness :
    exListPrivate.id = exListPrivate.id ∧
    realmCount (makeSharable exListPrivate
        (makeSharable exListPrivate exStatePrivate).2).2
      (getTiedRealmId exListPrivate.id) = 1 :=
  ⟨rfl, (makeSharable_idempotent exListPrivate exListPrivate exStatePrivate rfl).1⟩

/-! ## C5: delete removes the list, its items, tied memberships and tied realm -/

/-- C5: for every list `L`, private or shared, `delete()` removes the list
record, every item with `todoListId = L.id`, every membership with
`realmId = getTiedRealmId L.id` and the realm record at `getTiedRealmId L.id`,
while retaining every other record; the operation is total — with no tied
realm or memberships present the deletions are no-ops and it still succeeds. -/
theorem deleteList_correct (L : TodoListRec) (s : DBState) :
    (∀ l ∈ (deleteList L s).todoLists, l.id ≠ L.id) ∧
    (∀ i ∈ (deleteList L s).todoItems, i.todoListId ≠ L.id) ∧
    (∀ m ∈ (deleteList L s).members, m.realmId ≠ getTiedRealmId L.id) ∧
    (∀ r ∈ (deleteList L s).realms, r.realmId ≠ getTiedRealmId L.id) ∧
    (∀ l ∈ s.todoLists, l.id ≠ L.id → l ∈ (deleteList L s).todoLists) ∧
    (∀ i ∈ s.todoItems, i.todoListId ≠ L.id → i ∈ (deleteList L s).todoItems) ∧
    (∀ m ∈ s.members, m.realmId ≠ getTiedRealmId L.id →
      m ∈ (deleteList L s).members) ∧
    (∀ r ∈ s.realms, r.realmId ≠ getTiedRealmId L.id →
      r ∈ (deleteList L s).realms) := by
  refine ⟨?_, ?_, ?_, ?_, ?_, ?_, ?_, ?_⟩
  · intro x hx
    rw [deleteList_todoLists, List.mem_filter] at hx
    simpa using hx.2
  · intro x hx
    rw [deleteList_todoItems, List.mem_filter] at hx
    simpa using hx.2
  · intro x hx
    rw [deleteList_members, List.mem_filter] at hx
    simpa using hx.2
  · intro x hx
    rw [deleteList_realms, List.mem_filter] at hx
    simpa using hx.2
  · intro x hx h
    rw [deleteList_todoLists, List.mem_filter]
    exact ⟨hx, by simpa using h⟩
  · intro x hx h
    rw [deleteList_todoItems, List.mem_filter]
    exact ⟨hx, by simpa using h⟩
  · intro x hx h
    rw [deleteList_members, List.mem_filter]
    exact ⟨hx, by simpa using h⟩
  · intro x hx h
    rw [deleteList_realms, List.mem_filter]
    exact ⟨hx, by simpa using h⟩

/-! ## C6: shareWith promotes exactly when needed and adds one membership -/

/-- C6: `shareWith name email sendEmail` appends exactly one membership
record, whose `realmId` is the (possibly newly computed) realm id, whose
`invite` flag equals `sendEmail` and whose permissions are the fixed default
set `{ add: [todoItems], update: { todoItems: [done] } }`; the other tables
are promoted via `makeSharable` exactly when the list is not already
sharable, and are untouched otherwise. -/
theorem shareWith_correct (L : TodoListRec) (name email : String)
    (sendEmail : Bool) (s : DBState) :
    (isSharable L = true →
      (shareWith L name email sendEmail s).members =
        s.members ++ [⟨L.realmId, name, email, sendEmail, defaultSharePermissions⟩] ∧
      (shareWith L name email sendEmail s).todoLists = s.todoLists ∧
      (shareWith L name email sendEmail s).todoItems = s.todoItems ∧
      (shareWith L name email sendEmail s).realms = s.realms) ∧
    (isSharable L = false →
      (shareWith L name email sendEmail s).members =
        s.members ++
          [⟨getTiedRealmId L.id, name, email, sendEmail, defaultSharePermissions⟩] ∧
      (shareWith L name email sendEmail s).todoLists =
        (makeSharable L s).2.todoLists ∧
      (shareWith L name email sendEmail s).todoItems =
        (makeSharable L s).2.todoItems ∧
      (shareWith L name email sendEmail s).realms =
        (makeSharable L s).2.realms) := by
  constructor
  · intro h
    unfold shareWith
    rw [h]
    exact ⟨rfl, rfl, rfl, rfl⟩
  · intro h
    unfold shareWith
    rw [h]
    exact ⟨rfl, rfl, rfl, rfl⟩

/-- Witness for C6 on a concrete not-yet-sharable list. -/
theorem shareWith_correct_witness :
    isSharable exListPrivate = false ∧
    (shareWith exListPrivate "Carol" "carol.c" true exStatePrivate).members =
      exStatePrivate.members ++
        [⟨getTiedRealmId exListPrivate.id, "Carol", "carol.c", true,
          defaultSharePermissions⟩] :=
  ⟨by decide,
    ((shareWith_correct exListPrivate "Carol" "carol.c" true exStatePrivate).2
      (by decide)).1⟩

/-! ## C10: makePrivate is not guarded by sharability -/

/-- C10: `makePrivate` runs unguarded on an already-private list
(`L.realmId = currentUserId`): it deletes every membership whose `realmId`
equals the personal id, issues a realm-record delete keyed by the personal id,
and leaves the stored list's `realmId` at the personal id; consequently
`unshareWith` on such a list (when the post-deletion membership count is
`≤ 1`) removes the memberships of the caller's personal realm. -/
theorem makePrivate_unguarded (L : TodoListRec) (s : DBState) (email : String)
    (hpriv : L.realmId = s.currentUserId)
    (hcnt : membersCountByRealm (membersDeleteByRealmEmail s L.realmId email)
      L.realmId ≤ 1) :
    (∀ m ∈ (makePrivate L s).members, m.realmId ≠ s.currentUserId) ∧
    (∀ r ∈ (makePrivate L s).realms, r.realmId ≠ s.currentUserId) ∧
    (∀ l ∈ (makePrivate L s).todoLists, l.id = L.id →
      l.realmId = s.currentUserId) ∧
    (∀ m ∈ (unshareWith L email s).members, m.realmId ≠ s.currentUserId) := by
  refine ⟨?_, ?_, ?_, ?_⟩
  · intro m hm
    rw [makePrivate_members, List.mem_filter] at hm
    rw [← hpriv]
    simpa using hm.2
  · intro r hr
    rw [makePrivate_realms, List.mem_filter] at hr
    rw [← hpriv]
    simpa using hr.2
  · intro l hl hid
    rw [makePrivate_todoLists] at hl
    simp only [List.mem_map] at hl
    obtain ⟨a, _, ha⟩ := hl
    by_cases h : a.id = L.id
    · simp [h] at ha; subst ha; rfl
    · simp [h] at ha; subst ha; exact absurd hid h
  · have hu : unshareWith L email s =
        makePrivate L (membersDeleteByRealmEmail s L.realmId email) := by
      unfold unshareWith
      rw [if_pos hcnt]
    intro m hm
    rw [hu, makePrivate_members, List.mem_filter] at hm
    rw [← hpriv]
    simpa using hm.2

/-- Witness for C10: an already-private list with an empty membership table. -/
theorem makePrivate_unguarded_witness :
    exListPrivate.realmId = exStatePrivate.currentUserId ∧
    membersCountByRealm
      (membersDeleteByRealmEmail exStatePrivate exListPrivate.realmId "x")
      exListPrivate.realmId ≤ 1 ∧
    (∀ m ∈ (makePrivate exListPrivate exStatePrivate).members,
      m.realmId ≠ exStatePrivate.currentUserId) :=
  ⟨by decide, by decide,
    (makePrivate_unguarded exListPrivate exStatePrivate "x"
      (by decide) (by decide)).1⟩

/-! ## C7: the item/list realm invariant is preserved by every operation -/

/-- The cross-table invariant of the spec's data model: every item's `realmId`
equals its owning list's current `realmId`. -/
def ItemsMatchLists (s : DBState) : Prop :=
  ∀ i ∈ s.todoItems, ∀ l ∈ s.todoLists, i.todoListId = l.id → i.realmId = l.realmId

/-- Retargeting core shared by `makeSharable` and `makePrivate`: moving the
items of `(L.realmId, L.id)` to `newRid` while moving the list record of
`L.id` to `newRid` preserves the invariant, provided the entity `L` is the
stored record. -/
theorem retarget_preserves (L : TodoListRec) (s : DBState) (newRid : String)
    (hmem : L ∈ s.todoLists) (hinv : ItemsMatchLists s) :
    ∀ i ∈ s.todoItems.map (fun i =>
        if i.realmId = L.realmId ∧ i.todoListId = L.id then
          { i with realmId := newRid } else i),
      ∀ l ∈ s.todoLists.map (fun l =>
        if l.id = L.id then { l with realmId := newRid } else l),
      i.todoListId = l.id → i.realmId = l.realmId := by
  intro i hi l hl hil
  simp only [List.mem_map] at hi hl
  obtain ⟨a, ha, hai⟩ := hi
  obtain ⟨b, hb, hbl⟩ := hl
  by_cases hbid : b.id = L.id
  · have hlval : l = { b with realmId := newRid } := by rw [← hbl, if_pos hbid]
    have hlid : l.id = L.id := by rw [hlval]; exact hbid
    have hltarget : l.realmId = newRid := by simp [hlval]
    by_cases hmatch : a.realmId = L.realmId ∧ a.todoListId = L.id
    · have hival : i = { a with realmId := newRid } := by rw [← hai, if_pos hmatch]
      simp [hival, hltarget]
    · have hival : i = a := by rw [← hai, if_neg hmatch]
      have hitem : a.todoListId = L.id := by rw [← hival, hil, hlid]
      exact absurd ⟨hinv a ha L hmem hitem, hitem⟩ hmatch
  · have hlval : l = b := by rw [← hbl, if_neg hbid]
    by_cases hmatch : a.realmId = L.realmId ∧ a.todoListId = L.id
    · have hival : i = { a with realmId := newRid } := by rw [← hai, if_pos hmatch]
      have hcontra : l.id = L.id := by rw [← hil, hival]; exact hmatch.2
      exact absurd (hlval ▸ hcontra) hbid
    · have hival : i = a := by rw [← hai, if_neg hmatch]
      rw [hival, hlval]
      rw [hival, hlval] at hil
      exact hinv a ha b hb hil

/-- C7: starting from any state satisfying the invariant, in which the
entity's in-memory record is the stored list record, each of `makeSharable`,
`makePrivate`, `shareWith`, `unshareWith` and `delete` preserves the
invariant. -/
theorem ops_preserve_invariant (L : TodoListRec) (s : DBState)
    (hmem : L ∈ s.todoLists) (hinv : ItemsMatchLists s) :
    ItemsMatchLists (makeSharable L s).2 ∧
    ItemsMatchLists (makePrivate L s) ∧
    (∀ name email : String, ∀ b : Bool,
      ItemsMatchLists (shareWith L name email b s)) ∧
    (∀ email : String, ItemsMatchLists (unshareWith L email s)) ∧
    ItemsMatchLists (deleteList L s) := by
  refine ⟨?_, ?_, ?_, ?_, ?_⟩
  · exact retarget_preserves L s (getTiedRealmId L.id) hmem hinv
  · exact retarget_preserves L s s.currentUserId hmem hinv
  · intro name email b
    unfold ItemsMatchLists shareWith
    cases h : isSharable L
    · exact retarget_preserves L s (getTiedRealmId L.id) hmem hinv
    · exact hinv
  · intro email
    unfold ItemsMatchLists unshareWith
    by_cases hc : membersCountByRealm
        (membersDeleteByRealmEmail s L.realmId email) L.realmId ≤ 1
    · rw [if_pos hc]
      exact retarget_preserves L s s.currentUserId hmem hinv
    · rw [if_neg hc]
      exact hinv
  · intro i hi l hl hil
    rw [deleteList_todoItems, List.mem_filter] at hi
    rw [deleteList_todoLists, List.mem_filter] at hl
    exact hinv i hi.1 l hl.1 hil

/-- Witness for C7 on a concrete state satisfying the invariant. -/
theorem ops_preserve_invariant_witness :
    exListPrivate ∈ exStatePrivate.todoLists ∧
    ItemsMatchLists exStatePrivate ∧
    ItemsMatchLists (makeSharable exListPrivate exStatePrivate).2 :=
  ⟨by decide, by unfold ItemsMatchLists; decide,
    (ops_preserve_invariant exListPrivate exStatePrivate
      (by decide) (by unfold ItemsMatchLists; decide)).1⟩

/-! ## C8: every operation's transaction body is all-or-nothing

The Dexie transaction machinery is outside `src/`, so the coordinator is
modelled from the spec: §6 `runInTransaction(mode, tables, body)` — "atomic,
isolated, all-or-nothing"; §7(a) any exception inside a transaction body
aborts and rolls back all mutations and is propagated to the caller.  Each
operation's body is the list of its store calls, in source order; a storage
I/O failure is modelled by injecting a failing step at an arbitrary position
of the body. -/

/-- Modelled from the spec (§7a): run the steps of a transaction body in
sequence, threading the store state, stopping at the first error. -/
def runSteps (steps : List (DBState → Except String DBState)) (s : DBState) :
    Except String DBState :=
  match steps with
  | [] => .ok s
  | f :: rest =>
    match f s with
    | .ok s' => runSteps rest s'
    | .error e => .error e

/-- Modelled from the spec (§6, §5): the Transaction Coordinator — commit the
final state when the body succeeds; when any step raises, leave the store at
the initial state (full rollback) and return the error to the caller. -/
def runInTransaction (steps : List (DBState → Except String DBState))
    (s : DBState) : DBState × Option String :=
  match runSteps steps s with
  | .ok s' => (s', none)
  | .error e => (s, some e)

/-- Lift a list of infallible store mutations into transaction steps. -/
def liftSteps (gs : List (DBState → DBState)) :
    List (DBState → Except String DBState) :=
  gs.map (fun g s => .ok (g s))

/-- Apply a list of store mutations in sequence (the body's effect when no
step fails). -/
def applyBody (gs : List (DBState → DBState)) (s : DBState) : DBState :=
  gs.foldl (fun t g => g t) s

/-- Modelled from the spec (§5, §7a): a storage I/O failure at position `k`
of a transaction body. -/
def injectFailure (k : Nat) (e : String)
    (steps : List (DBState → Except String DBState)) :
    List (DBState → Except String DBState) :=
  steps.take k ++ [fun _ => .error e] ++ steps.drop k

/-- The transaction body of `makeSharable()`: its three store calls, in
source order. -/
def makeSharableBody (self : TodoListRec) : List (DBState → DBState) :=
  [ fun s => realmsPut s ⟨getTiedRealmId self.id, self.title⟩,
    fun s => listsUpdate s self.id (getTiedRealmId self.id),
    fun s => itemsModifyRealm s self.realmId self.id (getTiedRealmId self.id) ]

/-- The transaction body of `makePrivate()`: its four store calls, in source
order. -/
def makePrivateBody (self : TodoListRec) : List (DBState → DBState) :=
  [ fun s => itemsModifyRealm s self.realmId self.id s.currentUserId,
    fun s => listsUpdate s self.id s.currentUserId,
    fun s => membersDeleteByRealm s self.realmId,
    fun s => realmsDelete s self.realmId ]

/-- The transaction body of `shareWith()`: the nested `makeSharable`
promotion joins the enclosing transaction (its mutations are steps of the
same body), followed by the membership insertion. -/
def shareWithBody (self : TodoListRec) (name email : String)
    (sendEmail : Bool) : List (DBState → DBState) :=
  (if isSharable self then [] else makeSharableBody self) ++
  [ fun s => membersAdd s
      ⟨if isSharable self then self.realmId else getTiedRealmId self.id,
       name, email, sendEmail, defaultSharePermissions⟩ ]

/-- The transaction body of `unshareWith()`: the membership deletion, then
the conditional automatic privatization (which reads the membership count
from the current in-transaction state). -/
def unshareWithBody (self : TodoListRec) (email : String) :
    List (DBState → DBState) :=
  [ fun s => membersDeleteByRealmEmail s self.realmId email,
    fun s => if membersCountByRealm s self.realmId ≤ 1
      then makePrivate self s else s ]

/-- The transaction body of `delete()`: its four store calls, in source
order. -/
def deleteListBody (self : TodoListRec) : List (DBState → DBState) :=
  [ fun s => itemsDeleteByList s self.id,
    fun s => listsDelete s self.id,
    fun s => membersDeleteByRealm s (getTiedRealmId self.id),
    fun s => realmsDelete s (getTiedRealmId self.id) ]

theorem applyBody_makeSharable (self : TodoListRec) (s : DBState) :
    applyBody (makeSharableBody self) s = (makeSharable self s).2 := rfl

theorem applyBody_makePrivate (self : TodoListRec) (s : DBState) :
    applyBody (makePrivateBody self) s = makePrivate self s := rfl

theorem applyBody_shareWith (self : TodoListRec) (name email : String)
    (sendEmail : Bool) (s : DBState) :
    applyBody (shareWithBody self name email sendEmail) s =
      shareWith self name email sendEmail s := by
  unfold applyBody shareWithBody shareWith
  cases h : isSharable self <;> rfl

theorem applyBody_unshareWith (self : TodoListRec) (email : String)
    (s : DBState) :
    applyBody (unshareWithBody self email) s = unshareWith self email s := rfl

theorem applyBody_deleteList (self : TodoListRec) (s : DBState) :
    applyBody (deleteListBody self) s = deleteList self s := rfl

/-- A body of infallible steps runs to completion with its sequential
effect. -/
theorem runSteps_liftSteps (gs : List (DBState → DBState)) :
    ∀ s : DBState, runSteps (liftSteps gs) s = .ok (applyBody gs s) := by
  induction gs with
  | nil => intro s; rfl
  | cons g rest ih =>
    intro s
    simp only [liftSteps, List.map_cons, runSteps, applyBody, List.foldl_cons]
    exact ih (g s)

/-- A failure injected at any position of an otherwise infallible body makes
the whole body fail with that error. -/
theorem runSteps_injectFailure (gs : List (DBState → DBState)) :
    ∀ (k : Nat) (e : String) (s : DBState),
      runSteps (injectFailure k e (liftSteps gs)) s = .error e := by
  induction gs with
  | nil =>
    intro k e s
    simp [injectFailure, liftSteps, runSteps]
  | cons g rest ih =>
    intro k e s
    cases k with
    | zero => simp [injectFailure, liftSteps, runSteps]
    | succ n =>
      simp only [injectFailure, liftSteps, List.map_cons, List.take_succ_cons,
        List.drop_succ_cons, List.cons_append]
      show runSteps (_ :: (List.take n _ ++ _ ++ List.drop n _)) s = _
      simp only [runSteps]
      exact ih n e (g s)

/-- C8: each of the five operations is all-or-nothing: run as a transaction
body, it commits exactly the operation's result and no error; with a storage
failure injected at any position `k` of its body — including inside the
nested `makeSharable` promotion of `shareWith` — the final store state equals
the initial one (every already-applied mutation is rolled back) and the error
is propagated to the caller. -/
theorem transactions_atomic (L : TodoListRec) (s : DBState)
    (name email : String) (b : Bool) (k : Nat) (err : String) :
    runInTransaction (liftSteps (makeSharableBody L)) s =
      ((makeSharable L s).2, none) ∧
    runInTransaction (liftSteps (makePrivateBody L)) s =
      (makePrivate L s, none) ∧
    runInTransaction (liftSteps (shareWithBody L name email b)) s =
      (shareWith L name email b s, none) ∧
    runInTransaction (liftSteps (unshareWithBody L email)) s =
      (unshareWith L email s, none) ∧
    runInTransaction (liftSteps (deleteListBody L)) s =
      (deleteList L s, none) ∧
    runInTransaction (injectFailure k err (liftSteps (makeSharableBody L))) s =
      (s, some err) ∧
    runInTransaction (injectFailure k err (liftSteps (makePrivateBody L))) s =
      (s, some err) ∧
    runInTransaction (injectFailure k err
      (liftSteps (shareWithBody L name email b))) s = (s, some err) ∧
    runInTransaction (injectFailure k err (liftSteps (unshareWithBody L email))) s =
      (s, some err) ∧
    runInTransaction (injectFailure k err (liftSteps (deleteListBody L))) s =
      (s, some err) := by
  refine ⟨?_, ?_, ?_, ?_, ?_, ?_, ?_, ?_, ?_, ?_⟩
  · rw [runInTransaction, runSteps_liftSteps, applyBody_makeSharable]
  · rw [runInTransaction, runSteps_liftSteps, applyBody_makePrivate]
  · rw [runInTransaction, runSteps_liftSteps, applyBody_shareWith]
  · rw [runInTransaction, runSteps_liftSteps, applyBody_unshareWith]
  · rw [runInTransaction, runSteps_liftSteps, applyBody_deleteList]
  · rw [runInTransaction, runSteps_injectFailure]
  · rw [runInTransaction, runSteps_injectFailure]
  · rw [runInTransaction, runSteps_injectFailure]
  · rw [runInTransaction, runSteps_injectFailure]
  · rw [runInTransaction, runSteps_injectFailure]

/-! ## C9: two offline replicas calling makeSharable converge after merge

The Sync Engine is outside `src/`, so the merge is modelled from the spec:
§9 — store mutations are operation-log entries of (predicate, mutation)
replayed by the sync layer; §4.5 — `modify` applies "for every record
satisfying predicate P at merge time, apply mutation M"; §4.2 — realm
creation is an upsert so both replicas' creations succeed.  Merging replays
each replica's log over the common ancestor state. -/

/-- Modelled from the spec (§9): one operation-log entry. -/
inductive StoreOp where
  | putRealm (r : RealmRec)
  | updateListRealm (id rid : String)
  | modifyItemsRealm (rid listId newRid : String)
  | addItem (i : TodoItemRec)
deriving DecidableEq, Repr

/-- Replay one operation-log entry against a store state. -/
def applyOp (s : DBState) : StoreOp → DBState
  | .putRealm r => realmsPut s r
  | .updateListRealm id rid => listsUpdate s id rid
  | .modifyItemsRealm rid listId newRid => itemsModifyRealm s rid listId newRid
  | .addItem i => { s with todoItems := s.todoItems ++ [i] }

/-- Replay an operation log in order. -/
def applyOps (s : DBState) (ops : List StoreOp) : DBState :=
  ops.foldl applyOp s

/-- Modelled from the spec (§5, §9): merge two replicas that diverged from
the common ancestor `s0` by replaying replica A's operation log and then
replica B's over `s0`. -/
def mergeReplicas (s0 : DBState) (opsA opsB : List StoreOp) : DBState :=
  applyOps (applyOps s0 opsA) opsB

/-- The operation log produced by one `makeSharable()` call: the realm
upsert, the list update, and the predicate-based item modify, in source
order. -/
def makeSharableLog (self : TodoListRec) : List StoreOp :=
  [ .putRealm ⟨getTiedRealmId self.id, self.title⟩,
    .updateListRealm self.id (getTiedRealmId self.id),
    .modifyItemsRealm self.realmId self.id (getTiedRealmId self.id) ]

/-- The C9 scenario: replicas A and B each add some items to list `L` offline
and then call `makeSharable()` with no coordination; afterwards the logs are
merged. -/
def twoReplicaShareMerge (L : TodoListRec) (addsA addsB : List TodoItemRec)
    (s0 : DBState) : DBState :=
  mergeReplicas s0 (addsA.map StoreOp.addItem ++ makeSharableLog L)
    (addsB.map StoreOp.addItem ++ makeSharableLog L)

theorem applyOps_append (s : DBState) (xs ys : List StoreOp) :
    applyOps s (xs ++ ys) = applyOps (applyOps s xs) ys := by
  simp [applyOps, List.foldl_append]

theorem applyOps_addItems (adds : List TodoItemRec) :
    ∀ s : DBState, applyOps s (adds.map StoreOp.addItem) =
      { s with todoItems := s.todoItems ++ adds } := by
  induction adds with
  | nil =>
    intro s
    simp [applyOps]
  | cons a rest ih =>
    intro s
    have h1 : applyOps s ((a :: rest).map StoreOp.addItem) =
        applyOps { s with todoItems := s.todoItems ++ [a] }
          (rest.map StoreOp.addItem) := rfl
    rw [h1, ih]
    simp

/-- Replaying `makeSharable`'s log is exactly `makeSharable`'s effect. -/
theorem applyOps_makeSharableLog (self : TodoListRec) (s : DBState) :
    applyOps s (makeSharableLog self) = (makeSharable self s).2 := rfl

/-- The realm upsert leaves exactly one realm record at its key. -/
theorem realmCount_makeSharable (self : TodoListRec) (t : DBState) :
    realmCount (makeSharable self t).2 (getTiedRealmId self.id) = 1 := by
  rw [realmCount, makeSharable_realms, List.countP_append]
  have h0 : (t.realms.filter
      (fun q => ¬ q.realmId = getTiedRealmId self.id)).countP
      (fun r => r.realmId = getTiedRealmId self.id) = 0 := by
    rw [List.countP_eq_zero]
    intro a ha
    simp only [List.mem_filter, decide_eq_true_eq] at ha
    simp [ha.2]
  simp [h0]

/-- C9: if replicas A and B each add items to private list `L` (scoped to
`L`'s current realm) while offline and each call `makeSharable()`, then after
the merge exactly one realm record exists at `getTiedRealmId L.id` (not two),
and no item is lost: every item of `L` from the common ancestor and every
item added on either replica is present, scoped to the merged realm id. -/
theorem offline_shares_merge (L : TodoListRec) (s0 : DBState)
    (addsA addsB : List TodoItemRec)
    (hA : ∀ i ∈ addsA, i.realmId = L.realmId ∧ i.todoListId = L.id)
    (hB : ∀ i ∈ addsB, i.realmId = L.realmId ∧ i.todoListId = L.id) :
    realmCount (twoReplicaShareMerge L addsA addsB s0)
      (getTiedRealmId L.id) = 1 ∧
    (∀ i ∈ s0.todoItems, i.realmId = L.realmId → i.todoListId = L.id →
      { i with realmId := getTiedRealmId L.id } ∈
        (twoReplicaShareMerge L addsA addsB s0).todoItems) ∧
    (∀ i ∈ addsA, { i with realmId := getTiedRealmId L.id } ∈
      (twoReplicaShareMerge L addsA addsB s0).todoItems) ∧
    (∀ i ∈ addsB, { i with realmId := getTiedRealmId L.id } ∈
      (twoReplicaShareMerge L addsA addsB s0).todoItems) := by
  have hm : twoReplicaShareMerge L addsA addsB s0 =
      (makeSharable L
        { (makeSharable L { s0 with todoItems := s0.todoItems ++ addsA }).2 with
          todoItems :=
            (makeSharable L { s0 with todoItems := s0.todoItems ++ addsA }).2.todoItems
              ++ addsB }).2 := by
    unfold twoReplicaShareMerge mergeReplicas
    rw [applyOps_append, applyOps_addItems, applyOps_makeSharableLog,
      applyOps_append, applyOps_addItems, applyOps_makeSharableLog]
  have hitems : (twoReplicaShareMerge L addsA addsB s0).todoItems =
      (((s0.todoItems ++ addsA).map (fun i =>
          if i.realmId = L.realmId ∧ i.todoListId = L.id then
            { i with realmId := getTiedRealmId L.id } else i)) ++ addsB).map
        (fun i => if i.realmId = L.realmId ∧ i.todoListId = L.id then
          { i with realmId := getTiedRealmId L.id } else i) := by
    rw [hm]
    simp only [makeSharable_todoItems]
  have honce : ∀ i : TodoItemRec, i.realmId = L.realmId → i.todoListId = L.id →
      (fun i => if i.realmId = L.realmId ∧ i.todoListId = L.id then
        { i with realmId := getTiedRealmId L.id } else i) i =
      { i with realmId := getTiedRealmId L.id } := by
    intro i hir hil
    simp only
    rw [if_pos ⟨hir, hil⟩]
  have htwice : ∀ i : TodoItemRec, i.realmId = L.realmId → i.todoListId = L.id →
      (fun i => if i.realmId = L.realmId ∧ i.todoListId = L.id then
        { i with realmId := getTiedRealmId L.id } else i)
      ((fun i => if i.realmId = L.realmId ∧ i.todoListId = L.id then
        { i with realmId := getTiedRealmId L.id } else i) i) =
      { i with realmId := getTiedRealmId L.id } := by
    intro i hir hil
    rw [honce i hir hil]
    simp only
    simp [hil]
  refine ⟨?_, ?_, ?_, ?_⟩
  · rw [hm]
    exact realmCount_makeSharable L _
  · intro i hi hir hil
    rw [hitems, ← htwice i hir hil]
    exact List.mem_map_of_mem _ (List.mem_append_left _
      (List.mem_map_of_mem _ (List.mem_append_left _ hi)))
  · intro i hi
    rw [hitems, ← htwice i (hA i hi).1 (hA i hi).2]
    exact List.mem_map_of_mem _ (List.mem_append_left _
      (List.mem_map_of_mem _ (List.mem_append_right _ hi)))
  · intro i hi
    rw [hitems, ← honce i (hB i hi).1 (hB i hi).2]
    exact List.mem_map_of_mem _ (List.mem_append_right _ hi)

/-- Witness for C9: two replicas each add one item to the same private list
and both share it offline. -/
theorem offline_shares_merge_witness :
    (∀ i ∈ [(⟨"a1", "alice", "l1", false⟩ : TodoItemRec)],
      i.realmId = exListPrivate.realmId ∧ i.todoListId = exListPrivate.id) ∧
    realmCount (twoReplicaShareMerge exListPrivate
        [⟨"a1", "alice", "l1", false⟩] [⟨"b1", "alice", "l1", true⟩]
        exStatePrivate) (getTiedRealmId exListPrivate.id) = 1 :=
  ⟨by decide,
    (offline_shares_merge exListPrivate exStatePrivate
      [⟨"a1", "alice", "l1", false⟩] [⟨"b1", "alice", "l1", true⟩]
      (by decide) (by decide)).1⟩

end DexieTodo
